import Mathlib

/-!
Shallow embedding of `wasd_viewport_controls` (a Maya WASD fly-camera
controller, single file `__init__.py`) and proofs of its specification
claims.

The embedding follows the source closely:
* `CameraControlFilter` state (`_altPressed`, `_movingKeys`, the movement
  timer's active flag, `moveStep`) becomes `FilterState`.
* `eventFilter` becomes a pure transition function on `FilterState` that
  also returns the list of scene-API calls it makes (`SceneCall`) and the
  boolean it returns to Qt.
* `moveCameraLoop` / `moveCameraLocal` become functions from a scene
  environment (`SceneEnv`: focused panel, panel types, camera transform)
  to an updated environment plus the trace of scene-API calls.
* `ViewportControlPanel` state becomes `PanelState`, with
  `onEnabledToggled`, `installCameraControls`, `uninstallCameraControls`
  and `onStepSliderChanged` as pure transition functions.

Geometry is over `ℝ` (Maya's `MVector.length` uses a square root); the
slider step size is exact decimal arithmetic, modelled over `ℚ`.
-/

namespace Wasd

/-! ## Qt key codes used by the source -/

def Key_A : ℕ := 0x41
def Key_D : ℕ := 0x44
def Key_W : ℕ := 0x57
def Key_S : ℕ := 0x53
def Key_E : ℕ := 0x45
def Key_Q : ℕ := 0x51
def Key_F : ℕ := 0x46
def Key_Alt : ℕ := 0x01000023

/-! ## Vectors and matrices (`om.MVector`, `om.MMatrix`) -/

/-- A 3-vector of reals, embedding `om.MVector`. -/
structure Vec3 where
  x : ℝ
  y : ℝ
  z : ℝ

/-- Componentwise vector addition. -/
def Vec3.add (a b : Vec3) : Vec3 := ⟨a.x + b.x, a.y + b.y, a.z + b.z⟩

/-- Componentwise vector subtraction. -/
def Vec3.sub (a b : Vec3) : Vec3 := ⟨a.x - b.x, a.y - b.y, a.z - b.z⟩

/-- Vector-times-scalar, embedding `MVector.__mul__` with a float. -/
def Vec3.mulS (v : Vec3) (c : ℝ) : Vec3 := ⟨v.x * c, v.y * c, v.z * c⟩

/-- Euclidean length, embedding `MVector.length()`. -/
noncomputable def Vec3.length (v : Vec3) : ℝ :=
  Real.sqrt (v.x ^ 2 + v.y ^ 2 + v.z ^ 2)

/-- Normalized copy, embedding `MVector.normal()`.  Written as a scalar
multiple by the reciprocal length; on the zero vector this returns the
zero vector (division by zero is zero in Lean), matching Maya's behavior
of leaving a zero vector unchanged. -/
noncomputable def Vec3.normal (v : Vec3) : Vec3 := v.mulS (1 / v.length)

/-- The rotation part of a camera world matrix (rows of the upper 3×3
block of the `MMatrix`); `MVector * MMatrix` treats the vector as a
direction, so only this block participates. -/
structure Mat3 where
  row0 : Vec3
  row1 : Vec3
  row2 : Vec3

/-- Row-vector-times-matrix, embedding `MVector.__mul__(MMatrix)` for a
direction vector. -/
def vecMulMat (v : Vec3) (m : Mat3) : Vec3 :=
  ⟨v.x * m.row0.x + v.y * m.row1.x + v.z * m.row2.x,
   v.x * m.row0.y + v.y * m.row1.y + v.z * m.row2.y,
   v.x * m.row0.z + v.y * m.row1.z + v.z * m.row2.z⟩

/-- The identity matrix. -/
def idMat3 : Mat3 := ⟨⟨1, 0, 0⟩, ⟨0, 1, 0⟩, ⟨0, 0, 1⟩⟩

/-! ## The direction table `CameraControlFilter.KEY_VECTORS` -/

/-- `KEY_VECTORS`: the fixed mapping from key code to local direction.
`none` for keys outside the table (`key in self.KEY_VECTORS` is
`(KEY_VECTORS k).isSome`). -/
def KEY_VECTORS (k : ℕ) : Option Vec3 :=
  if k = Key_A then some ⟨-1, 0, 0⟩
  else if k = Key_D then some ⟨1, 0, 0⟩
  else if k = Key_W then some ⟨0, 0, -1⟩
  else if k = Key_S then some ⟨0, 0, 1⟩
  else if k = Key_E then some ⟨0, 1, 0⟩
  else if k = Key_Q then some ⟨0, -1, 0⟩
  else none

/-- `KEY_VECTORS.get(key, MVector(0, 0, 0))`. -/
def keyVec (k : ℕ) : Vec3 := (KEY_VECTORS k).getD ⟨0, 0, 0⟩

/-- `MOVE_SCALE_FACTOR = 0.1`. -/
noncomputable def MOVE_SCALE_FACTOR : ℝ := 0.1

/-! ## Events and scene-API calls -/

/-- The Qt event types the filter inspects. -/
inductive QEventType where
  | KeyPress
  | KeyRelease
  | Other
deriving DecidableEq

/-- A key event: type, key code, auto-repeat flag. -/
structure KeyEvent where
  etype : QEventType
  key : ℕ
  isAutoRepeat : Bool
deriving DecidableEq

/-- External scene-API calls (`cmds.*`) the controller can make, in
order of appearance in the source. -/
inductive SceneCall where
  | lookAtSelection
  | frameSelected
  | getPanelWithFocus
  | getPanelTypeOf
  | queryCameraName
  | queryCamPosition
  | queryCenterOfInterest
  | queryWorldMatrix
  | setCamPosition (p : Vec3)
  | refresh

/-! ## `CameraControlFilter` state and event handling -/

/-- The mutable state of a `CameraControlFilter`: `_altPressed`,
`_movingKeys`, whether `moveTimer` is active, and `moveStep`.  The step
size is exact decimal arithmetic, modelled over `ℚ`. -/
structure FilterState where
  altPressed : Bool
  movingKeys : Finset ℕ
  timerActive : Bool
  moveStep : ℚ
deriving DecidableEq

/-- State after `CameraControlFilter.__init__` (default `moveStep=0.1`;
the timer is created but not started). -/
def initState : FilterState :=
  { altPressed := false, movingKeys := ∅, timerActive := false, moveStep := 0.1 }

/-- `_startMovementTimer`: start only when no movement key is held yet
and the timer is idle. -/
def startMovementTimer (s : FilterState) : FilterState :=
  if s.movingKeys = ∅ ∧ s.timerActive = false then
    { s with timerActive := true }
  else s

/-- `_stopMovementTimer`: stop when active. -/
def stopMovementTimer (s : FilterState) : FilterState :=
  if s.timerActive = true then { s with timerActive := false } else s

/-- `if key == QtCore.Qt.Key_Alt: _altPressed = False; _movingKeys.clear()`
(first statement of the KeyRelease branch). -/
def applyAltRelease (s : FilterState) (k : ℕ) : FilterState :=
  if k = Key_Alt then { s with altPressed := false, movingKeys := ∅ } else s

/-- `if not event.isAutoRepeat(): if key in _movingKeys: _movingKeys.remove(key)`. -/
def applyKeyRemove (s : FilterState) (k : ℕ) (rep : Bool) : FilterState :=
  if rep = false ∧ k ∈ s.movingKeys then
    { s with movingKeys := s.movingKeys.erase k }
  else s

/-- `if not _altPressed or not _movingKeys: _stopMovementTimer()`. -/
def applyStopCheck (s : FilterState) : FilterState :=
  if s.altPressed = false ∨ s.movingKeys = ∅ then stopMovementTimer s else s

/-- `CameraControlFilter.eventFilter`: returns the updated state, the
scene-API calls made while handling the event, and the boolean returned
to Qt. -/
def eventFilter (s : FilterState) (e : KeyEvent) :
    FilterState × List SceneCall × Bool :=
  match e.etype with
  | QEventType.KeyPress =>
      if e.key = Key_Alt then
        ({ s with altPressed := true }, [], false)
      else if s.altPressed = true ∧ e.key = Key_F then
        (s, [SceneCall.lookAtSelection, SceneCall.frameSelected], false)
      else if s.altPressed = true ∧ (KEY_VECTORS e.key).isSome = true ∧
          e.isAutoRepeat = false then
        let s1 := startMovementTimer s
        ({ s1 with movingKeys := insert e.key s1.movingKeys }, [], false)
      else (s, [], false)
  | QEventType.KeyRelease =>
      (applyStopCheck (applyKeyRemove (applyAltRelease s e.key) e.key e.isAutoRepeat),
       [], false)
  | QEventType.Other => (s, [], false)

/-- The state component of `eventFilter`. -/
def step (s : FilterState) (e : KeyEvent) : FilterState := (eventFilter s e).1

/-- Process a sequence of events starting from the freshly-constructed
filter. -/
def runEvents (es : List KeyEvent) : FilterState := es.foldl step initState

/-! ## The scene environment and the per-tick camera update -/

/-- The part of the Maya scene the tick update reads and writes: the
focused panel (`cmds.getPanel(withFocus=True)`, `none` when no panel is
focused), each panel's type (`cmds.getPanel(typeOf=...)`), and the
focused camera's world transform data. -/
structure SceneEnv where
  focusedPanel : Option String
  panelType : String → String
  camPos : Vec3
  coiPos : Vec3
  camMat : Mat3

/-- `CameraControlFilter.moveCameraLocal`: returns the updated scene and
the trace of scene-API calls.  Bails out (after the focus check only)
when no panel is focused or the focused panel is not a `modelPanel`. -/
noncomputable def moveCameraLocal (env : SceneEnv) (localDir : Vec3)
    (distance : ℝ) : SceneEnv × List SceneCall :=
  match env.focusedPanel with
  | none => (env, [SceneCall.getPanelWithFocus])
  | some panel =>
      if env.panelType panel ≠ "modelPanel" then
        (env, [SceneCall.getPanelWithFocus, SceneCall.getPanelTypeOf])
      else
        let camPos := env.camPos
        let coiPos := env.coiPos
        let camMat := env.camMat
        let scaleMetric := (coiPos.sub camPos).length
        let scaledDistance := distance * scaleMetric * MOVE_SCALE_FACTOR
        let worldDir := (vecMulMat localDir camMat).normal
        let newCamPos := camPos.add (worldDir.mulS scaledDistance)
        ({ env with camPos := newCamPos },
         [SceneCall.getPanelWithFocus, SceneCall.getPanelTypeOf,
          SceneCall.queryCameraName, SceneCall.queryCamPosition,
          SceneCall.queryCenterOfInterest, SceneCall.queryWorldMatrix,
          SceneCall.setCamPosition newCamPos, SceneCall.refresh])

/-- The composite movement vector: the sum of the direction-table
entries of the held keys (`moveVector += KEY_VECTORS.get(key, ...)` over
`_movingKeys`), written componentwise. -/
noncomputable def sumKeyVectors (keys : Finset ℕ) : Vec3 :=
  ⟨∑ k ∈ keys, (keyVec k).x, ∑ k ∈ keys, (keyVec k).y, ∑ k ∈ keys, (keyVec k).z⟩

/-- `CameraControlFilter.moveCameraLoop`, the timer's tick body. -/
noncomputable def moveCameraLoop (env : SceneEnv) (s : FilterState) :
    SceneEnv × List SceneCall :=
  if s.altPressed = false ∨ s.movingKeys = ∅ then (env, [])
  else
    let moveVector := sumKeyVectors s.movingKeys
    if moveVector.length > 0 then
      moveCameraLocal env moveVector.normal (s.moveStep : ℝ)
    else (env, [])

/-! ## `ViewportControlPanel` -/

/-- `clamp(value, min_value, max_value)` from the source, over `ℚ`. -/
def clamp (value minValue maxValue : ℚ) : ℚ :=
  max minValue (min maxValue value)

/-- `ViewportControlPanel.STEP_MIN = 0.01`. -/
def STEP_MIN : ℚ := 0.01

/-- `ViewportControlPanel.STEP_MAX = 0.20`. -/
def STEP_MAX : ℚ := 0.20

/-- The panel's state: the install flag, the number of event-filter
subscriptions currently installed on the main window, whether the
heads-up-display line exists, the enable button's label, and the owned
filter's `moveStep`. -/
structure PanelState where
  isInstalled : Bool
  filterCount : ℕ
  hudExists : Bool
  buttonText : String
  moveStep : ℚ
deriving DecidableEq

/-- `ViewportControlPanel.installCameraControls`: subscribe the event
filter and create the heads-up display. -/
def installCameraControls (p : PanelState) : PanelState :=
  { p with filterCount := p.filterCount + 1, isInstalled := true, hudExists := true }

/-- `ViewportControlPanel.uninstallCameraControls`: remove the event
filter and, if it exists, the heads-up display. -/
def uninstallCameraControls (p : PanelState) : PanelState :=
  let p1 := { p with filterCount := p.filterCount - 1, isInstalled := false }
  if p1.hudExists = true then { p1 with hudExists := false } else p1

/-- `ViewportControlPanel.onEnabledToggled`. -/
def onEnabledToggled (p : PanelState) (checked : Bool) : PanelState :=
  let p1 :=
    if checked = true ∧ p.isInstalled = false then installCameraControls p
    else if checked = false ∧ p.isInstalled = true then uninstallCameraControls p
    else p
  { p1 with buttonText := if p1.isInstalled = true then "DISABLE" else "ENABLE" }

/-- `ViewportControlPanel.onStepSliderChanged`: map the integer slider
value to a step via `val / 100` clamped to `[STEP_MIN, STEP_MAX]`, and
store it in the filter's `moveStep`. -/
def onStepSliderChanged (p : PanelState) (val : ℤ) : PanelState :=
  { p with moveStep := clamp ((val : ℚ) / 100) STEP_MIN STEP_MAX }

/-! ## Claims -/

/-- C10: for every input event and every state, `eventFilter` returns
`false`, so the controller only observes key events and never consumes
them. -/
theorem eventFilter_returns_false (s : FilterState) (e : KeyEvent) :
    (eventFilter s e).2.2 = false := by
  obtain ⟨t, k, rep⟩ := e
  cases t
  · simp only [eventFilter]
    split_ifs <;> rfl
  · rfl
  · rfl

/-- C4: for every prior state, processing a key-release event for the
modifier key (auto-repeat or not) sets the chord flag to false, empties
the held-key set, and leaves the movement timer inactive. -/
theorem altRelease_resets (s : FilterState) (rep : Bool) :
    (step s ⟨QEventType.KeyRelease, Key_Alt, rep⟩).altPressed = false ∧
    (step s ⟨QEventType.KeyRelease, Key_Alt, rep⟩).movingKeys = ∅ ∧
    (step s ⟨QEventType.KeyRelease, Key_Alt, rep⟩).timerActive = false := by
  simp only [step, eventFilter, applyAltRelease, applyKeyRemove, applyStopCheck,
    stopMovementTimer, if_pos rfl]
  split_ifs <;> simp_all

/-- C7: for every integer slider value, including out-of-range ones, the
slider handler stores `clamp(val / 100, STEP_MIN, STEP_MAX)` into
`moveStep`, which therefore always lies in `[0.01, 0.20]`. -/
theorem stepSlider_clamps (p : PanelState) (val : ℤ) :
    (onStepSliderChanged p val).moveStep = clamp ((val : ℚ) / 100) STEP_MIN STEP_MAX ∧
    STEP_MIN ≤ (onStepSliderChanged p val).moveStep ∧
    (onStepSliderChanged p val).moveStep ≤ STEP_MAX := by
  refine ⟨rfl, le_max_left _ _, max_le (by norm_num [STEP_MIN, STEP_MAX]) (min_le_left _ _)⟩

/-- C8: the enable toggle is idempotent: a second `checked=true` call
without an intervening disable leaves the state exactly as after the
first (in particular `isInstalled` stays true and no second subscription
is installed), and symmetrically for `checked=false`. -/
theorem enableToggle_idempotent (p : PanelState) :
    onEnabledToggled (onEnabledToggled p true) true = onEnabledToggled p true ∧
    onEnabledToggled (onEnabledToggled p false) false = onEnabledToggled p false ∧
    (onEnabledToggled p true).isInstalled = true ∧
    (onEnabledToggled (onEnabledToggled p true) true).filterCount
      = (onEnabledToggled p true).filterCount := by
  obtain ⟨inst, cnt, hud, txt, ms⟩ := p
  cases inst <;>
    simp [onEnabledToggled, installCameraControls, uninstallCameraControls] <;>
    split_ifs <;> simp_all

/-- C5 counterexample: auto-repeat events can alter the held-key set.
From the state where the chord is active and `W` is held, an auto-repeat
key-release of the modifier clears `_movingKeys` (the modifier-release
branch of `eventFilter` runs before the auto-repeat check). -/
theorem autoRepeat_altRelease_clears_keys :
    (step ⟨true, {Key_W}, true, 0.1⟩
        ⟨QEventType.KeyRelease, Key_Alt, true⟩).movingKeys
      ≠ ({Key_W} : Finset ℕ) := by
  simp only [step, eventFilter, applyAltRelease, applyKeyRemove, applyStopCheck,
    stopMovementTimer, if_pos rfl]
  split_ifs <;> simp <;> decide

/-- C5 amended: every auto-repeat key event, with the single exception
of a key-release of the modifier key (which clears the held-key set),
leaves the held-key set's membership unchanged. -/
theorem autoRepeat_preserves_movingKeys (s : FilterState) (e : KeyEvent)
    (hrep : e.isAutoRepeat = true)
    (hexc : ¬(e.etype = QEventType.KeyRelease ∧ e.key = Key_Alt)) :
    (step s e).movingKeys = s.movingKeys := by
  obtain ⟨t, k, rep⟩ := e
  cases t with
  | KeyPress =>
      simp only at hrep
      simp only [step, eventFilter]
      split_ifs with h1 h2 h3
      · rfl
      · rfl
      · rw [hrep] at h3; simp at h3
      · rfl
  | KeyRelease =>
      have hk : k ≠ Key_Alt := by
        intro hkk
        exact hexc ⟨rfl, hkk⟩
      simp only at hrep
      simp only [step, eventFilter, applyAltRelease, applyKeyRemove, applyStopCheck,
        stopMovementTimer, if_neg hk, hrep]
      split_ifs <;> simp_all
  | Other => rfl

/-- C5 amended witness: an auto-repeat press of `W` from the initial
state leaves the held-key set unchanged. -/
theorem autoRepeat_preserves_movingKeys_witness :
    (step initState ⟨QEventType.KeyPress, Key_W, true⟩).movingKeys
      = initState.movingKeys :=
  autoRepeat_preserves_movingKeys initState ⟨QEventType.KeyPress, Key_W, true⟩
    rfl (by decide)

/-- C6 counterexample: with the modifier held, a press of the frame key
whose auto-repeat flag is true still triggers the look-at-selection and
frame-selected actions (the frame branch never checks the auto-repeat
flag), contradicting the claim that a repeat press does not trigger the
action. -/
theorem frameKey_autoRepeat_triggers :
    (eventFilter ⟨true, ∅, false, 0.1⟩
        ⟨QEventType.KeyPress, Key_F, true⟩).2.1
      = [SceneCall.lookAtSelection, SceneCall.frameSelected] := by
  simp only [eventFilter]
  split_ifs with h1 h2 h3
  · exact absurd h1 (by decide)
  · rfl
  · exact absurd h3.2.1 (by decide)
  · exact absurd ⟨trivial, trivial⟩ h2

/-- C6 amended: while the modifier is held, every press event of the
frame key — auto-repeat or not — triggers the look-at-selection plus
frame-selected action exactly once per press event. -/
theorem frameKey_press_triggers_once (s : FilterState) (e : KeyEvent)
    (halt : s.altPressed = true) (ht : e.etype = QEventType.KeyPress)
    (hk : e.key = Key_F) :
    (eventFilter s e).2.1
      = [SceneCall.lookAtSelection, SceneCall.frameSelected] := by
  obtain ⟨t, k, rep⟩ := e
  simp only at ht hk
  subst ht hk
  simp only [eventFilter]
  split_ifs with h1 h2 h3
  · exact absurd h1 (by decide)
  · rfl
  · exact absurd h3.2.1 (by decide)
  · exact absurd ⟨halt, trivial⟩ h2

/-- C6 amended witness: a non-repeat press of the frame key with the
modifier held fires the action exactly once. -/
theorem frameKey_press_triggers_once_witness :
    (eventFilter ⟨true, ∅, true, 0.1⟩
        ⟨QEventType.KeyPress, Key_F, false⟩).2.1
      = [SceneCall.lookAtSelection, SceneCall.frameSelected] :=
  frameKey_press_triggers_once ⟨true, ∅, true, 0.1⟩
    ⟨QEventType.KeyPress, Key_F, false⟩ rfl rfl rfl

/-- C9: when no panel is focused, or the focused panel is not a
`modelPanel`, the tick update leaves the scene unchanged (camera
position included, no redraw) and makes no scene-API call beyond the
focus check. -/
theorem tick_noop_without_viewport (env : SceneEnv) (d : Vec3) (dist : ℝ)
    (h : env.focusedPanel = none ∨
      ∃ p, env.focusedPanel = some p ∧ env.panelType p ≠ "modelPanel") :
    (moveCameraLocal env d dist).1 = env ∧
    ∀ c ∈ (moveCameraLocal env d dist).2,
      c = SceneCall.getPanelWithFocus ∨ c = SceneCall.getPanelTypeOf := by
  rcases h with h | ⟨p, hp, hty⟩
  · simp [moveCameraLocal, h]
  · simp [moveCameraLocal, hp, hty]

/-- A concrete scene with no focused panel. -/
noncomputable def envNoFocus : SceneEnv :=
  { focusedPanel := none, panelType := fun _ => "modelPanel",
    camPos := ⟨0, 0, 10⟩, coiPos := ⟨0, 0, 0⟩, camMat := idMat3 }

/-- C9 witness: on the concrete unfocused scene, a tick changes nothing
and only performs the focus check. -/
theorem tick_noop_without_viewport_witness :
    (moveCameraLocal envNoFocus ⟨0, 0, -1⟩ 1).1 = envNoFocus ∧
    ∀ c ∈ (moveCameraLocal envNoFocus ⟨0, 0, -1⟩ 1).2,
      c = SceneCall.getPanelWithFocus ∨ c = SceneCall.getPanelTypeOf :=
  tick_noop_without_viewport envNoFocus ⟨0, 0, -1⟩ 1 (Or.inl rfl)

/-! ## The scheduler invariant (C1) -/

/-- The inductive invariant of `eventFilter`: held keys imply the chord
is active, and the movement timer is active exactly when the chord is
active and at least one movement key is held. -/
def Inv (s : FilterState) : Prop :=
  (s.movingKeys ≠ ∅ → s.altPressed = true) ∧
  (s.timerActive = true ↔ s.altPressed = true ∧ s.movingKeys ≠ ∅)

theorem inv_initState : Inv initState := by
  constructor
  · intro h
    exact absurd rfl h
  · simp [initState]

theorem inv_step (s : FilterState) (e : KeyEvent) (h : Inv s) :
    Inv (step s e) := by
  obtain ⟨hkeys, htimer⟩ := h
  obtain ⟨t, k, rep⟩ := e
  cases t with
  | KeyPress =>
      simp only [step, eventFilter]
      split_ifs with h1 h2 h3
      · -- modifier press: only `altPressed` changes
        refine ⟨fun _ => rfl, ?_, ?_⟩
        · intro ht
          exact ⟨rfl, (htimer.mp ht).2⟩
        · rintro ⟨-, hne⟩
          exact htimer.mpr ⟨hkeys hne, hne⟩
      · exact ⟨hkeys, htimer⟩
      · -- navigation key press while the chord is active
        obtain ⟨halt, -, -⟩ := h3
        by_cases hstart : s.movingKeys = ∅ ∧ s.timerActive = false
        · obtain ⟨hemp, hoff⟩ := hstart
          refine ⟨fun _ => ?_, ?_⟩
          · simp [startMovementTimer, hemp, hoff, halt]
          · simp [startMovementTimer, hemp, hoff, halt, Finset.insert_ne_empty]
        · have hne : s.movingKeys ≠ ∅ := by
            intro hemp
            rcases Bool.eq_false_or_eq_true s.timerActive with htr | hf
            · exact absurd (htimer.mp htr).2 (by simp [hemp])
            · exact hstart ⟨hemp, hf⟩
          have htr : s.timerActive = true := htimer.mpr ⟨halt, hne⟩
          refine ⟨fun _ => ?_, ?_⟩
          · simp [startMovementTimer, hstart, halt]
          · simp [startMovementTimer, hstart, halt, htr, Finset.insert_ne_empty]
      · exact ⟨hkeys, htimer⟩
  | KeyRelease =>
      simp only [step, eventFilter]
      by_cases hk : k = Key_Alt
      · -- modifier release resets everything
        simp only [applyAltRelease, if_pos hk]
        constructor
        · simp [applyStopCheck, applyKeyRemove, stopMovementTimer]
          split_ifs <;> simp_all
        · simp [applyStopCheck, applyKeyRemove, stopMovementTimer]
          split_ifs <;> simp_all
      · simp only [applyAltRelease, if_neg hk]
        -- the removal stage: `movingKeys` only shrinks, other fields kept
        set sB := applyKeyRemove s k rep with hsB
        have hBalt : sB.altPressed = s.altPressed := by
          rw [hsB]; unfold applyKeyRemove; split_ifs <;> rfl
        have hBtimer : sB.timerActive = s.timerActive := by
          rw [hsB]; unfold applyKeyRemove; split_ifs <;> rfl
        have hBkeys : sB.movingKeys ≠ ∅ → s.movingKeys ≠ ∅ := by
          rw [hsB]; unfold applyKeyRemove; split_ifs with hc
          · intro hne hemp
            simp [hemp] at hne
          · exact id
        by_cases hstop : sB.altPressed = false ∨ sB.movingKeys = ∅
        · -- deactivation: the timer ends inactive and the condition is false
          simp only [applyStopCheck, if_pos hstop]
          have ht' : (stopMovementTimer sB).timerActive = false := by
            unfold stopMovementTimer; split_ifs <;> simp_all
          have ha' : (stopMovementTimer sB).altPressed = sB.altPressed := by
            unfold stopMovementTimer; split_ifs <;> rfl
          have hm' : (stopMovementTimer sB).movingKeys = sB.movingKeys := by
            unfold stopMovementTimer; split_ifs <;> rfl
          refine ⟨?_, ?_, ?_⟩
          · rw [hm', ha', hBalt]
            intro hne
            exact hkeys (hBkeys hne)
          · rw [ht']
            intro hff
            exact absurd hff (by simp)
          · rintro ⟨ha, hne⟩
            rw [ha', hBalt] at ha
            rw [hm'] at hne
            rw [ht']
            rcases hstop with hs | hs
            · rw [hBalt] at hs
              rw [ha] at hs
              exact absurd hs (by simp)
            · exact absurd hs hne
        · -- the condition still holds: the timer stays on
          simp only [applyStopCheck, if_neg hstop]
          push_neg at hstop
          obtain ⟨ha, hne⟩ := hstop
          have ha' : sB.altPressed = true := by
            simpa using ha
          refine ⟨fun _ => ha', ?_, ?_⟩
          · intro _
            exact ⟨ha', hne⟩
          · rintro ⟨-, -⟩
            rw [hBtimer]
            exact htimer.mpr ⟨by rw [← hBalt]; exact ha', hBkeys hne⟩
  | Other => exact ⟨hkeys, htimer⟩

theorem inv_run (es : List KeyEvent) (s : FilterState) (h : Inv s) :
    Inv (es.foldl step s) := by
  induction es generalizing s with
  | nil => exact h
  | cons e es ih => exact ih (step s e) (inv_step s e h)

/-- C1: after processing any finite sequence of key events from the
initial state, the movement timer is active if and only if the chord
flag `_altPressed` is true and the held-key set `_movingKeys` is
non-empty. -/
theorem timer_active_iff_chord_and_keys (es : List KeyEvent) :
    (runEvents es).timerActive = true ↔
      ((runEvents es).altPressed = true ∧ (runEvents es).movingKeys ≠ ∅) :=
  (inv_run es initState inv_initState).2

/-! ## Per-tick direction composition and the transform formula -/

/-- C3: at a tick, the movement direction passed to the camera update is
the normalization of the vector sum of the direction-table entries of
the held keys; and when that sum is the zero vector the tick changes
nothing — no camera mutation and no scene-API call. -/
theorem tick_direction_and_cancellation (env : SceneEnv) (s : FilterState) :
    (sumKeyVectors s.movingKeys = (⟨0, 0, 0⟩ : Vec3) →
      moveCameraLoop env s = (env, [])) ∧
    (s.altPressed = true → s.movingKeys ≠ ∅ →
      (sumKeyVectors s.movingKeys).length > 0 →
      moveCameraLoop env s
        = moveCameraLocal env (sumKeyVectors s.movingKeys).normal (s.moveStep : ℝ)) := by
  constructor
  · intro hz
    by_cases hskip : s.altPressed = false ∨ s.movingKeys = ∅
    · simp [moveCameraLoop, hskip]
    · have hlen : (sumKeyVectors s.movingKeys).length = 0 := by
        rw [hz]
        simp [Vec3.length]
      simp [moveCameraLoop, hskip, hlen]
  · intro h1 h2 h3
    simp [moveCameraLoop, h1, h2, h3]

/-- A concrete scene with a focused `modelPanel`: camera at `(0,0,10)`
looking at the origin with the identity orientation. -/
noncomputable def envViewport : SceneEnv :=
  { focusedPanel := some "modelPanel4", panelType := fun _ => "modelPanel",
    camPos := ⟨0, 0, 10⟩, coiPos := ⟨0, 0, 0⟩, camMat := idMat3 }

/-- C3 witness: holding the opposite pair `A` and `D` with the chord
active produces no camera change and no scene-API call. -/
theorem tick_cancellation_witness :
    moveCameraLoop envViewport ⟨true, {Key_A, Key_D}, true, 0.1⟩
      = (envViewport, []) := by
  apply (tick_direction_and_cancellation envViewport
    ⟨true, {Key_A, Key_D}, true, 0.1⟩).1
  have hAD : ({Key_A, Key_D} : Finset ℕ) = insert Key_A {Key_D} := rfl
  have hmem : Key_A ∉ ({Key_D} : Finset ℕ) := by decide
  simp only [sumKeyVectors, hAD, Finset.sum_insert hmem, Finset.sum_singleton,
    keyVec, KEY_VECTORS, Key_A, Key_D, Key_W, Key_S, Key_E, Key_Q]
  norm_num

/-- C2: on a tick with a focused 3D viewport, the new camera position is
`P + normalize(d * M) * (S * distance(C, P) * MOVE_SCALE_FACTOR)` for
camera position `P`, center of interest `C`, orientation `M`, local
direction `d` and step `S`. -/
theorem tick_moves_camera (env : SceneEnv) (p : String) (d : Vec3) (dist : ℝ)
    (hp : env.focusedPanel = some p) (hty : env.panelType p = "modelPanel") :
    (moveCameraLocal env d dist).1.camPos
      = env.camPos.add
          ((vecMulMat d env.camMat).normal.mulS
            (dist * (env.coiPos.sub env.camPos).length * MOVE_SCALE_FACTOR)) := by
  simp [moveCameraLocal, hp, hty]

/-- C2 witness: with step `0.1`, camera `(0,0,10)`, center of interest
`(0,0,0)`, identity orientation and the `W` direction `(0,0,-1)`, the
tick moves the camera to `(0,0,9.9)`. -/
theorem tick_moves_camera_witness :
    (moveCameraLocal envViewport ⟨0, 0, -1⟩ 0.1).1.camPos
      = (⟨0, 0, 9.9⟩ : Vec3) := by
  rw [tick_moves_camera envViewport "modelPanel4" ⟨0, 0, -1⟩ 0.1 rfl rfl]
  have h100 : Real.sqrt (100 : ℝ) = 10 := by
    rw [show (100 : ℝ) = 10 ^ 2 by norm_num]
    exact Real.sqrt_sq (by norm_num)
  simp only [envViewport, idMat3, vecMulMat, Vec3.sub, Vec3.add, Vec3.mulS,
    Vec3.normal, Vec3.length, MOVE_SCALE_FACTOR]
  norm_num [h100, Real.sqrt_one]

end Wasd
